import Mathlib

/-!
Verification of the plate-preview core of the R24 plate-generation app.

The embedding follows `src/components/MultiPlatePreview.jsx` (scale
resolution, frame dimensions, motif tiling decision, per-plate render
geometry) and the plate-list CRUD helpers documented in the repository
(`addPlate` / `removePlate`).  Physical quantities (cm) and scale factors
(px per cm) are modelled as rationals; pixel quantities produced by
`Math.round` / `Math.ceil` are integers.  A small model of JavaScript
number coercion (`JSNum`) captures the `Number(x) || 0` parsing used for
plate dimensions, including `NaN`, `Infinity` and absent values.
-/

namespace PlateGen

/-- JavaScript `Math.round`: round half toward positive infinity. -/
def jround (x : ℚ) : ℤ := ⌊x + 1/2⌋

/-- A plate record: stable id plus physical dimensions in centimeters
(the finite-valued layer of the data model). -/
structure Plate where
  id : ℕ
  widthCm : ℚ
  heightCm : ℚ
deriving DecidableEq, Repr

/-- The measured preview container (`boxRef.current`): DOM `clientWidth` /
`clientHeight` are nonnegative integer pixel counts. -/
structure Box where
  clientWidth : ℕ
  clientHeight : ℕ
deriving DecidableEq, Repr

/-- The component's scale state (`scaleX`, `scaleY` React state, px per cm). -/
structure ScaleState where
  scaleX : ℚ
  scaleY : ℚ
deriving DecidableEq, Repr

/-- Derived `totalWidthCm` of `MultiPlatePreview.jsx`:
`plates.reduce((s, p) => s + (Number(p?.widthCm) || 0), 0) || 1`.
In this finite layer every `widthCm` is a rational, so the reduce is a plain
sum and the trailing `|| 1` replaces a zero sum by 1. -/
def totalWidthCm (plates : List Plate) : ℚ :=
  let s := (plates.map Plate.widthCm).sum
  if s = 0 then 1 else s

/-- The `compute` closure of the layout effect in `MultiPlatePreview.jsx`:
if the container ref is not mounted (`!el`) it returns immediately, keeping
the previous scale state; otherwise it clamps both container dimensions to a
minimum of 1, sets `vScale = boxH / HEIGHT_MAX`,
`hScale = boxW / max(1, totalWidthCm)`, and stores
`scaleY = vScale`, `scaleX = min(vScale, hScale)`.
`heightMax` is the configured `HEIGHT_MAX` constant (cm). -/
def compute (heightMax : ℚ) (twc : ℚ) (el : Option Box) (prev : ScaleState) :
    ScaleState :=
  match el with
  | none => prev
  | some el =>
    let boxW : ℚ := max 1 (el.clientWidth : ℚ)
    let boxH : ℚ := max 1 (el.clientHeight : ℚ)
    let vScale := boxH / heightMax
    let hScale := boxW / max 1 twc
    { scaleX := min vScale hScale, scaleY := vScale }

/-- `MOTIF_WIDTH_CM`: the assumed natural visual width of the motif (cm). -/
def MOTIF_WIDTH_CM : ℚ := 300

/-- `needMirror = totalWidthCm > MOTIF_WIDTH_CM`: the tiling decision of the
compositor (`true` = tiled/mirrored, `false` = single stretched image).  It is
computed once per render pass, so the chosen mode is shared by all plates. -/
def needMirror (twc : ℚ) : Bool := decide (MOTIF_WIDTH_CM < twc)

/-- `frameDims.frameW = Math.max(1, Math.round(totalWidthCm * scaleX))`. -/
def frameW (twc scaleX : ℚ) : ℤ := max 1 (jround (twc * scaleX))

/-- `frameDims.frameH`: the measured container height, or the 360 px default
when the ref is not mounted. -/
def frameH (el : Option Box) : ℕ :=
  match el with
  | some b => b.clientHeight
  | none => 360

/-- The tile parameters computed by the `tile` memo. -/
structure Tile where
  tileW : ℤ
  tileCount : ℤ
deriving DecidableEq, Repr

/-- The `tile` memo of `MultiPlatePreview.jsx`:
`tileW = Math.max(1, Math.round(MOTIF_WIDTH_CM * scaleX))` and
`tileCount = Math.max(1, Math.ceil(frameW / tileW))`. -/
def tile (scaleX : ℚ) (fw : ℤ) : Tile :=
  let tileW : ℤ := max 1 (jround (MOTIF_WIDTH_CM * scaleX))
  let tileCount : ℤ := max 1 ⌈(fw : ℚ) / (tileW : ℚ)⌉
  { tileW := tileW, tileCount := tileCount }

/-- Mirroring of one tile in the tiled branch:
`transform: idx % 2 === 1 ? "scaleX(-1)" : "none"`. -/
def tileMirrored (idx : ℕ) : Bool := idx % 2 == 1

/-- The rendered row of tiles, `Array.from({length: tileCount}).map(...)`:
one mirror flag per tile index. -/
def tileRowOf (t : Tile) : List Bool :=
  (List.range t.tileCount.toNat).map tileMirrored

/-- Pixel geometry of one plate as produced by the render loop. -/
structure RenderBox where
  leftPx : ℤ
  widthPx : ℤ
  heightPx : ℤ
deriving DecidableEq, Repr

/-- The render loop of `MultiPlatePreview.jsx`, with the running physical
offset `xCm` made explicit: for each plate
`leftPx = Math.round(xCm * scaleX)`,
`w = Math.max(1, Math.round(widthCm * scaleX))`,
`h = Math.max(1, Math.round(heightCm * scaleY))`,
then `xCm += widthCm`. -/
def renderBoxesFrom (sX sY : ℚ) : ℚ → List Plate → List RenderBox
  | _, [] => []
  | xCm, p :: ps =>
    { leftPx := jround (xCm * sX),
      widthPx := max 1 (jround (p.widthCm * sX)),
      heightPx := max 1 (jround (p.heightCm * sY)) } ::
      renderBoxesFrom sX sY (xCm + p.widthCm) ps

/-- The render loop started with `xCm = 0`. -/
def renderBoxes (sX sY : ℚ) (plates : List Plate) : List RenderBox :=
  renderBoxesFrom sX sY 0 plates

/-- `addPlate` of App.jsx:
`setPlates(prev => prev.length >= 10 ? prev : [...prev, withId(NEW_PLATE)])`,
with the freshly-created plate passed explicitly. -/
def addPlate (newPlate : Plate) (prev : List Plate) : List Plate :=
  if 10 ≤ prev.length then prev else prev ++ [newPlate]

/-- `removePlate` of App.jsx:
`setPlates(prev => prev.length <= 1 ? prev : prev.filter(p => p.id !== id))`. -/
def removePlate (i : ℕ) (prev : List Plate) : List Plate :=
  if prev.length ≤ 1 then prev else prev.filter (fun p => p.id != i)

/-- A user operation on the plate list. -/
inductive PlateOp where
  | add : PlateOp
  | remove : ℕ → PlateOp
deriving DecidableEq, Repr

/-- Apply one operation; `gen` models `withId(NEW_PLATE)` (the id generator
`crypto.randomUUID()` is a function of nothing observable, modelled as a
function of the current list so freshness can be stated). -/
def applyOp (gen : List Plate → Plate) (l : List Plate) (op : PlateOp) :
    List Plate :=
  match op with
  | .add => addPlate (gen l) l
  | .remove i => removePlate i l

/-- The Plate Set invariant: between 1 and 10 plates, ids unique within the
list (the data model's id uniqueness). -/
def PlateSetInv (l : List Plate) : Prop :=
  1 ≤ l.length ∧ l.length ≤ 10 ∧ (l.map Plate.id).Nodup

/-! ### JavaScript number model

`Number(p?.widthCm) || 0` is not total on finite rationals: JavaScript
numbers include `NaN` and the two infinities, and `|| 0` replaces only the
falsy values (`0`, `NaN`) by `0`.  `JSNum` models exactly the values this
code path can see. -/

/-- A JavaScript number: finite (modelled as a rational), `NaN`, or a signed
infinity (`inf true` = `+Infinity`, `inf false` = `-Infinity`). -/
inductive JSNum where
  | fin : ℚ → JSNum
  | nan : JSNum
  | inf : Bool → JSNum
deriving DecidableEq, Repr

namespace JSNum

/-- `Number(x)` for `x` an optional numeric field: `Number(undefined) = NaN`. -/
def ofOpt : Option JSNum → JSNum
  | none => nan
  | some v => v

/-- JavaScript truthiness of a number: `0` and `NaN` are falsy. -/
def truthy : JSNum → Bool
  | fin q => decide (q ≠ 0)
  | nan => false
  | inf _ => true

/-- JavaScript `v || d`. -/
def orDefault (v d : JSNum) : JSNum := if v.truthy then v else d

/-- JavaScript `+` on numbers. -/
def add : JSNum → JSNum → JSNum
  | nan, _ => nan
  | _, nan => nan
  | inf b, inf c => if b = c then inf b else nan
  | inf b, fin _ => inf b
  | fin _, inf c => inf c
  | fin a, fin b => fin (a + b)

/-- JavaScript `*` on numbers. -/
def mul : JSNum → JSNum → JSNum
  | nan, _ => nan
  | _, nan => nan
  | inf b, inf c => inf (b = c)
  | inf b, fin q => if q = 0 then nan else inf (b = decide (0 < q))
  | fin q, inf c => if q = 0 then nan else inf (c = decide (0 < q))
  | fin a, fin b => fin (a * b)

/-- JavaScript `Math.round` on a possibly non-finite number. -/
def round : JSNum → JSNum
  | fin q => fin ((jround q : ℤ) : ℚ)
  | nan => nan
  | inf b => inf b

/-- JavaScript `Math.max(1, x)`: `NaN` wins, `-Infinity` loses to 1. -/
def max1 : JSNum → JSNum
  | fin q => fin (max 1 q)
  | nan => nan
  | inf true => inf true
  | inf false => fin 1

end JSNum

/-- A plate as the render code sees it before coercion: the numeric fields
may be absent (`p?.widthCm === undefined`) or non-finite. -/
structure JSPlate where
  widthCm : Option JSNum
  heightCm : Option JSNum
deriving DecidableEq, Repr

/-- `Number(field) || 0`: the dimension parsing applied to every plate field
by `totalWidthCm` and by the render loop. -/
def parseDim (v : Option JSNum) : JSNum := (JSNum.ofOpt v).orDefault (.fin 0)

/-- `totalWidthCm` over JavaScript numbers:
`plates.reduce((s, p) => s + (Number(p?.widthCm) || 0), 0) || 1`. -/
def totalWidthCmJS (plates : List JSPlate) : JSNum :=
  (plates.foldl (fun (s : JSNum) (p : JSPlate) => s.add (parseDim p.widthCm))
    (.fin 0)).orDefault (.fin 1)

/-- Per-plate pixel width over JavaScript numbers:
`Math.max(1, Math.round((Number(p?.widthCm) || 0) * scaleX))`. -/
def plateWidthPxJS (wc : Option JSNum) (sX : JSNum) : JSNum :=
  ((parseDim wc).mul sX).round.max1

/-- A concrete id generator (stands in for `crypto.randomUUID()`): the
successor of the sum of the ids in the list, which is never already
present. -/
def genFresh (l : List Plate) : Plate :=
  { id := (l.map Plate.id).sum + 1, widthCm := 60, heightCm := 40 }

/-! ## Basic facts about the embedded operations -/

theorem jround_le (x : ℚ) : (jround x : ℚ) ≤ x + 1/2 :=
  Int.floor_le _

theorem lt_jround (x : ℚ) : x - 1/2 < (jround x : ℚ) := by
  have h := Int.sub_one_lt_floor (x + 1/2)
  unfold jround
  linarith

theorem jround_zero : jround 0 = 0 := by
  unfold jround
  norm_num

theorem tile_tileW (sX : ℚ) (fw : ℤ) :
    (tile sX fw).tileW = max 1 (jround (MOTIF_WIDTH_CM * sX)) := rfl

theorem tile_tileCount (sX : ℚ) (fw : ℤ) :
    (tile sX fw).tileCount =
      max 1 ⌈(fw : ℚ) / ((max 1 (jround (MOTIF_WIDTH_CM * sX)) : ℤ) : ℚ)⌉ := rfl

/-! ## Claims -/

/-- C1: for all positive container dimensions, total physical width and
physical height ceiling, the Scale Resolver's `compute` returns
`scaleY = containerHeightPx / maxPhysicalHeightCm` exactly and
`scaleX = min(scaleY, containerWidthPx / totalWidthCm)` exactly, the
container dimensions and the `totalWidthCm` divisor being clamped to a
minimum of 1 before dividing. -/
theorem C1_scale_resolver_formula (W H : ℕ) (heightMax twc : ℚ)
    (s : ScaleState) (hW : 0 < W) (hH : 0 < H) (hhm : 0 < heightMax)
    (htw : 0 < twc) :
    (compute heightMax twc (some ⟨W, H⟩) s).scaleY = (H : ℚ) / heightMax ∧
    (compute heightMax twc (some ⟨W, H⟩) s).scaleX =
      min ((H : ℚ) / heightMax) ((W : ℚ) / max 1 twc) := by
  have hW1 : (1 : ℚ) ≤ (W : ℚ) := by exact_mod_cast hW
  have hH1 : (1 : ℚ) ≤ (H : ℚ) := by exact_mod_cast hH
  constructor <;> simp [compute, max_eq_right hW1, max_eq_right hH1]

/-- C1 witness: the 800×360 px container of spec Scenario A with
`totalWidthCm = 350` and `HEIGHT_MAX = 220`. -/
theorem C1_scale_resolver_witness :
    (compute 220 350 (some ⟨800, 360⟩) ⟨1, 1⟩).scaleY =
      ((360 : ℕ) : ℚ) / 220 ∧
    (compute 220 350 (some ⟨800, 360⟩) ⟨1, 1⟩).scaleX =
      min (((360 : ℕ) : ℚ) / 220) (((800 : ℕ) : ℚ) / max 1 350) :=
  C1_scale_resolver_formula 800 360 220 350 ⟨1, 1⟩ (by decide) (by decide)
    (by norm_num) (by norm_num)

/-- C3: the rendering mode is tiled iff the summed plate width exceeds the
motif's natural width of 300 cm; at equality the mode is stretched.  The
decision is one boolean derived once per pass, so all plates share it. -/
theorem C3_tiling_decision (plates : List Plate) :
    (needMirror (totalWidthCm plates) = true ↔
      MOTIF_WIDTH_CM < (plates.map Plate.widthCm).sum) ∧
    needMirror MOTIF_WIDTH_CM = false := by
  refine ⟨?_, by simp [needMirror]⟩
  unfold needMirror totalWidthCm
  by_cases h : (plates.map Plate.widthCm).sum = 0
  · simp only [h, if_pos rfl, decide_eq_true_eq, MOTIF_WIDTH_CM]
    norm_num
  · simp [h]

/-- C6 counterexample: a mounted container of zero size does not skip the
computation — the prior scale state `⟨1, 1⟩` is replaced (the zero
dimensions are clamped to 1 px and new scales are computed). -/
theorem C6_zero_size_counterexample :
    compute 220 350 (some ⟨0, 0⟩) ⟨1, 1⟩ ≠ ⟨1, 1⟩ := by
  intro h
  have h2 := congrArg ScaleState.scaleY h
  norm_num [compute] at h2

/-- C6 amended: the computation is skipped (prior scales retained) only when
the container is not mounted; a mounted container, zero-sized or not, has
both dimensions clamped to a minimum of 1 and the scales recomputed.  No
exception is raised in either case. -/
theorem C6_skip_only_when_unmounted (heightMax twc : ℚ) (s : ScaleState) :
    compute heightMax twc none s = s ∧
    ∀ b : Box, compute heightMax twc (some b) s =
      { scaleX := min (max 1 (b.clientHeight : ℚ) / heightMax)
          (max 1 (b.clientWidth : ℚ) / max 1 twc),
        scaleY := max 1 (b.clientHeight : ℚ) / heightMax } :=
  ⟨rfl, fun _ => rfl⟩

/-- C7 counterexample: a plate whose `widthCm` is `+Infinity` is NOT treated
as 0 — `Number(x) || 0` keeps the (truthy) infinity, so it contributes
`+Infinity` to `totalWidthCm` (not 0, which would have left the clamped
total at 1), and its render-box width is `+Infinity`, not the 1 px
minimum. -/
theorem C7_infinity_counterexample :
    totalWidthCmJS [⟨some (.inf true), some (.fin 90)⟩] = .inf true ∧
    totalWidthCmJS [⟨some (.inf true), some (.fin 90)⟩] ≠ .fin 1 ∧
    plateWidthPxJS (some (.inf true)) (.fin 2) ≠ .fin 1 :=
  ⟨rfl, by decide, by decide⟩

/-- C7 amended: a plate dimension that is absent or `NaN` is treated as 0 —
it contributes nothing to the running `totalWidthCm` sum and its render box
degrades to the 1 px minimum; `±Infinity`, however, is truthy and is kept by
`Number(x) || 0`, propagating into the sum and the render geometry. -/
theorem C7_nan_absent_as_zero (w : Option JSNum)
    (hw : w = none ∨ w = some .nan) (sX : ℚ) (acc : JSNum) :
    parseDim w = .fin 0 ∧ acc.add (parseDim w) = acc ∧
    plateWidthPxJS w (.fin sX) = .fin 1 := by
  have hp : parseDim w = .fin 0 := by rcases hw with h | h <;> subst h <;> rfl
  refine ⟨hp, ?_, ?_⟩
  · rw [hp]; cases acc <;> simp [JSNum.add]
  · rw [plateWidthPxJS, hp]
    show ((JSNum.fin (0 * sX)).round).max1 = .fin 1
    rw [zero_mul]
    show JSNum.fin (max 1 ((jround 0 : ℤ) : ℚ)) = .fin 1
    rw [jround_zero]
    have h1 : max 1 (((0 : ℤ) : ℚ)) = 1 := by norm_num
    rw [h1]

/-- C7 witness: a `NaN` width renders as the 1 px minimum box. -/
theorem C7_nan_as_zero_witness :
    plateWidthPxJS (some JSNum.nan) (.fin 2) = .fin 1 :=
  (C7_nan_absent_as_zero (some .nan) (Or.inr rfl) 2 (.fin 0)).2.2

/-- C8 counterexample (negation of the claimed existence): there are no
positive inputs at all for which the computed `scaleX` exceeds `scaleY`,
because `scaleX = min(vScale, hScale) ≤ vScale = scaleY`. -/
theorem C8_no_input_with_scaleX_gt_scaleY :
    ¬ ∃ (W H : ℕ) (heightMax twc : ℚ) (s : ScaleState),
        0 < W ∧ 0 < H ∧ 0 < heightMax ∧ 0 < twc ∧
        (compute heightMax twc (some ⟨W, H⟩) s).scaleY <
          (compute heightMax twc (some ⟨W, H⟩) s).scaleX := by
  rintro ⟨W, H, heightMax, twc, s, -, -, -, -, hlt⟩
  exact absurd hlt (not_lt.mpr (min_le_left _ _))

/-- C8 amended: whenever the container is measurable the Scale Resolver
produces `scaleY = vScale` and `scaleX = min(vScale, hScale)`, hence
`scaleX ≤ scaleY` is guaranteed for every input. -/
theorem C8_scaleX_le_scaleY (heightMax twc : ℚ) (b : Box) (s : ScaleState) :
    (compute heightMax twc (some b) s).scaleX ≤
      (compute heightMax twc (some b) s).scaleY ∧
    (compute heightMax twc (some b) s).scaleY =
      max 1 (b.clientHeight : ℚ) / heightMax ∧
    (compute heightMax twc (some b) s).scaleX =
      min (max 1 (b.clientHeight : ℚ) / heightMax)
        (max 1 (b.clientWidth : ℚ) / max 1 twc) :=
  ⟨min_le_left _ _, rfl, rfl⟩

/-- The render loop in closed form: the box at index `i` (if any) has
`leftPx` the rounded scaled running offset (initial offset `x` plus the sum
of the preceding widths) and clamped rounded scaled width/height. -/
theorem renderBoxesFrom_getElem (sX sY : ℚ) (plates : List Plate) :
    ∀ (x : ℚ) (i : ℕ),
      (renderBoxesFrom sX sY x plates)[i]? =
        (plates[i]?).map (fun p =>
          { leftPx := jround ((x + ((plates.take i).map Plate.widthCm).sum) * sX),
            widthPx := max 1 (jround (p.widthCm * sX)),
            heightPx := max 1 (jround (p.heightCm * sY)) }) := by
  induction plates with
  | nil => intro x i; simp [renderBoxesFrom]
  | cons p ps ih =>
    intro x i
    cases i with
    | zero => simp [renderBoxesFrom]
    | succ i =>
      simp only [renderBoxesFrom, List.getElem?_cons_succ, List.take_succ_cons,
        List.map_cons, List.sum_cons]
      rw [ih (x + p.widthCm) i]
      cases h : ps[i]? <;> simp [h, add_assoc]

/-- C2: the Motif Compositor walks the plates with a running cm offset
starting at 0; the box of plate `i` has
`leftPx = round((sum of preceding widths) * scaleX)`,
`widthPx = max(1, round(widthCm * scaleX))` and
`heightPx = max(1, round(heightCm * scaleY))` — the width and height are
clamped to a 1 px minimum, the left offset is not — and the first plate's
`leftPx` is 0. -/
theorem C2_render_loop_geometry (sX sY : ℚ) (plates : List Plate) (i : ℕ)
    (hi : i < plates.length) :
    (renderBoxes sX sY plates)[i]? =
      some { leftPx := jround (((plates.take i).map Plate.widthCm).sum * sX),
             widthPx := max 1 (jround ((plates.get ⟨i, hi⟩).widthCm * sX)),
             heightPx := max 1 (jround ((plates.get ⟨i, hi⟩).heightCm * sY)) } ∧
    ∀ b : RenderBox, (renderBoxes sX sY plates)[0]? = some b → b.leftPx = 0 := by
  constructor
  · have hmain := renderBoxesFrom_getElem sX sY plates 0 i
    rw [List.getElem?_eq_getElem hi] at hmain
    rw [renderBoxes, hmain]
    rw [Option.map_some']
    simp [zero_add]
  · intro b hb
    rw [renderBoxes, renderBoxesFrom_getElem sX sY plates 0 0] at hb
    cases h : plates[0]? with
    | none => rw [h] at hb; simp [Option.map_none'] at hb
    | some q =>
      rw [h] at hb
      rw [Option.map_some'] at hb
      rw [Option.some_inj] at hb
      rw [← hb]
      simp [jround_zero]

/-- C2 witness: two plates 250×128 cm and 100×90 cm at `scaleX = 2`,
`scaleY = 3`: the second box sits at 500 px with a 200×270 px body. -/
theorem C2_render_loop_witness :
    (renderBoxes 2 3 [⟨1, 250, 128⟩, ⟨2, 100, 90⟩])[1]? =
      some { leftPx := 500, widthPx := 200, heightPx := 270 } := by
  have h := (C2_render_loop_geometry 2 3 [⟨1, 250, 128⟩, ⟨2, 100, 90⟩] 1
    (by decide)).1
  rw [h]
  show some (RenderBox.mk (jround (((250 : ℚ) + 0) * 2))
      (max 1 (jround ((100 : ℚ) * 2))) (max 1 (jround ((90 : ℚ) * 3)))) =
    some (RenderBox.mk 500 200 270)
  have h1 : jround (((250 : ℚ) + 0) * 2) = 500 := by unfold jround; norm_num
  have h2 : jround ((100 : ℚ) * 2) = 200 := by unfold jround; norm_num
  have h3 : jround ((90 : ℚ) * 3) = 270 := by unfold jround; norm_num
  rw [h1, h2, h3]
  have h4 : max (1 : ℤ) 200 = 200 := by norm_num
  have h5 : max (1 : ℤ) 270 = 270 := by norm_num
  rw [h4, h5]

/-- C4: whenever the mode is tiled, `tileW = round(300 * scaleX)` clamped to
a minimum of 1, `tileCount = ceil(frameW / tileW)` clamped to a minimum of
1, the rendered row has `tileCount` tiles, and a tile is mirrored exactly at
the odd 0-based indices. -/
theorem C4_tile_mirroring (twc sX : ℚ) (fw : ℤ) (h : needMirror twc = true) :
    (tile sX fw).tileW = max 1 (jround (MOTIF_WIDTH_CM * sX)) ∧
    (tile sX fw).tileCount =
      max 1 ⌈(fw : ℚ) / ((max 1 (jround (MOTIF_WIDTH_CM * sX)) : ℤ) : ℚ)⌉ ∧
    (tileRowOf (tile sX fw)).length = (tile sX fw).tileCount.toNat ∧
    ∀ i : ℕ, i < (tile sX fw).tileCount.toNat →
      ((tileRowOf (tile sX fw))[i]? = some true ↔ i % 2 = 1) := by
  refine ⟨rfl, rfl, by simp [tileRowOf], ?_⟩
  intro i hi
  simp [tileRowOf, List.getElem?_map, List.getElem?_range, hi, tileMirrored]

/-- C4 witness: at `scaleX = 1/2` and a 175 px frame the tile width is
150 px, the tile count is 2, and the second tile (index 1) is mirrored. -/
theorem C4_tile_mirroring_witness :
    (tileRowOf (tile (1/2 : ℚ) 175))[1]? = some true := by
  have hcount : (tile (1/2 : ℚ) 175).tileCount = 2 := by
    rw [tile_tileCount]
    have hw : jround (MOTIF_WIDTH_CM * (1/2 : ℚ)) = 150 := by
      unfold jround MOTIF_WIDTH_CM
      norm_num
    rw [hw]
    have hm : max (1 : ℤ) 150 = 150 := by norm_num
    rw [hm]
    have hc : ⌈((175 : ℤ) : ℚ) / ((150 : ℤ) : ℚ)⌉ = 2 := by
      rw [Int.ceil_eq_iff]
      norm_num
    rw [hc]
    norm_num
  have hi : 1 < (tile (1/2 : ℚ) 175).tileCount.toNat := by
    rw [hcount]
    decide
  exact ((C4_tile_mirroring 350 (1/2) 175 (by decide)).2.2.2 1 hi).mpr rfl

/-- A nonpositive quantity rounds to at most 0, so the 1 px clamp takes
over. -/
theorem clamp_one_of_nonpos (x : ℚ) (h : x ≤ 0) : max 1 (jround x) = 1 := by
  have h1 : (jround x : ℚ) ≤ 1/2 := le_trans (jround_le x) (by linarith)
  have h2 : jround x ≤ 0 := by
    by_contra h3
    push_neg at h3
    have h4 : (1 : ℚ) ≤ (jround x : ℚ) := by exact_mod_cast h3
    linarith
  omega

/-- The widths of the rendered boxes do not depend on the running offset:
they are the clamped rounded scaled plate widths, in order. -/
theorem renderBoxesFrom_map_widthPx (sX sY : ℚ) :
    ∀ (plates : List Plate) (x : ℚ),
      (renderBoxesFrom sX sY x plates).map RenderBox.widthPx =
        plates.map (fun p => max 1 (jround (p.widthCm * sX))) := by
  intro plates
  induction plates with
  | nil => intro x; simp [renderBoxesFrom]
  | cons p ps ih => intro x; simp [renderBoxesFrom, ih]

/-- Bounds on the sum of clamped rounded scaled widths when every scaled
width is nonnegative: the sum is at least the number of plates, at most the
exact scaled total plus one per plate, and at least the exact scaled total
minus half a pixel per plate. -/
theorem sum_clamped_bounds (sX : ℚ) :
    ∀ ws : List ℚ, (∀ w ∈ ws, 0 ≤ w * sX) →
      (ws.length : ℚ) ≤
        (((ws.map (fun w => max 1 (jround (w * sX)))).sum : ℤ) : ℚ) ∧
      (((ws.map (fun w => max 1 (jround (w * sX)))).sum : ℤ) : ℚ) ≤
        ws.sum * sX + ws.length ∧
      ws.sum * sX - (ws.length : ℚ) / 2 ≤
        (((ws.map (fun w => max 1 (jround (w * sX)))).sum : ℤ) : ℚ) := by
  intro ws
  induction ws with
  | nil => intro hw; norm_num
  | cons w ws ih =>
    intro hw
    obtain ⟨ih1, ih2, ih3⟩ := ih (fun x hx => hw x (List.mem_cons_of_mem _ hx))
    have hw0 : 0 ≤ w * sX := hw w (List.mem_cons_self _ _)
    have hhead1 : (1 : ℚ) ≤ ((max 1 (jround (w * sX)) : ℤ) : ℚ) := by
      exact_mod_cast le_max_left 1 (jround (w * sX))
    have hhead2 : ((max 1 (jround (w * sX)) : ℤ) : ℚ) ≤ w * sX + 1 := by
      rw [Int.cast_max]
      apply max_le
      · norm_num
        linarith
      · have h5 := jround_le (w * sX)
        linarith
    have hhead3 : w * sX - 1/2 ≤ ((max 1 (jround (w * sX)) : ℤ) : ℚ) := by
      rw [Int.cast_max]
      have h6 := lt_jround (w * sX)
      exact le_trans (le_of_lt h6) (le_max_right _ _)
    have hexp : (w + ws.sum) * sX = w * sX + ws.sum * sX := add_mul w ws.sum sX
    simp only [List.map_cons, List.sum_cons, List.length_cons, Int.cast_add,
      Nat.cast_add, Nat.cast_one]
    refine ⟨by linarith, by linarith, by linarith⟩

/-- When every scaled width is nonpositive, each clamped rounded width is
exactly 1 px, so the sum is the number of plates. -/
theorem sum_clamped_eq_length (sX : ℚ) :
    ∀ ws : List ℚ, (∀ w ∈ ws, w * sX ≤ 0) →
      (ws.map (fun w => max 1 (jround (w * sX)))).sum = (ws.length : ℤ) := by
  intro ws
  induction ws with
  | nil => intro h; simp
  | cons w ws ih =>
    intro h
    simp only [List.map_cons, List.sum_cons, List.length_cons]
    rw [clamp_one_of_nonpos _ (h w (List.mem_cons_self _ _)),
      ih (fun x hx => h x (List.mem_cons_of_mem _ hx))]
    push_cast
    ring

/-- An integer bounded by `n + 1/2` over the rationals is bounded by `n`. -/
theorem int_le_of_cast_le_add_half (a b : ℤ) (n : ℕ)
    (h : (a : ℚ) - (b : ℚ) ≤ (n : ℚ) + 1/2) : a - b ≤ (n : ℤ) := by
  by_contra hcon
  push_neg at hcon
  have hcon2 : (n : ℤ) + 1 ≤ a - b := by omega
  have h2 : ((n : ℚ)) + 1 ≤ (a : ℚ) - (b : ℚ) := by exact_mod_cast hcon2
  linarith

/-- C5: for a Plate Set of `n` plates (positive physical widths, per the
data model) and any scale, the sum of the per-plate clamped pixel widths
differs from `frameWidthPx = max(1, round(totalWidthCm * scaleX))` by at
most `n` pixels. -/
theorem C5_width_sum_drift (sX sY : ℚ) (plates : List Plate)
    (hne : plates ≠ []) (hpos : ∀ p ∈ plates, 0 < p.widthCm) :
    |((renderBoxes sX sY plates).map RenderBox.widthPx).sum -
        frameW (totalWidthCm plates) sX| ≤ (plates.length : ℤ) := by
  have hwpos : ∀ w ∈ plates.map Plate.widthCm, 0 < w := by
    intro w hw
    obtain ⟨p, hp, rfl⟩ := List.mem_map.mp hw
    exact hpos p hp
  have hmapne : plates.map Plate.widthCm ≠ [] := by
    intro h0
    exact hne (List.map_eq_nil_iff.mp h0)
  have hSpos : 0 < (plates.map Plate.widthCm).sum :=
    List.sum_pos _ hwpos hmapne
  have htwc : totalWidthCm plates = (plates.map Plate.widthCm).sum := by
    show (if (plates.map Plate.widthCm).sum = 0 then 1
      else (plates.map Plate.widthCm).sum) = (plates.map Plate.widthCm).sum
    rw [if_neg (ne_of_gt hSpos)]
  have hmap : (renderBoxes sX sY plates).map RenderBox.widthPx =
      (plates.map Plate.widthCm).map (fun w => max 1 (jround (w * sX))) := by
    rw [renderBoxes, renderBoxesFrom_map_widthPx, List.map_map]
    rfl
  rw [htwc, hmap]
  set ws : List ℚ := plates.map Plate.widthCm with hws
  have hlen : ws.length = plates.length := List.length_map _ _
  have hmapne2 : ws ≠ [] := hmapne
  have hn1 : (1 : ℚ) ≤ (ws.length : ℚ) := by
    have h0 : 0 < ws.length := List.length_pos.mpr hmapne2
    exact_mod_cast h0
  rw [← hlen]
  set a : ℤ := (ws.map (fun w => max 1 (jround (w * sX)))).sum with ha
  set b : ℤ := frameW ws.sum sX with hb
  by_cases hsx : 0 ≤ sX
  · obtain ⟨hb1, hb2, hb3⟩ := sum_clamped_bounds sX ws
      (fun w hw => mul_nonneg (le_of_lt (hwpos w hw)) hsx)
    have hSX0 : 0 ≤ ws.sum * sX := mul_nonneg (le_of_lt hSpos) hsx
    have hfb2 : ((b : ℤ) : ℚ) ≤ ws.sum * sX + 1 := by
      rw [hb, frameW, Int.cast_max]
      apply max_le
      · norm_num
        linarith
      · have h5 := jround_le (ws.sum * sX)
        linarith
    have hfb3 : ws.sum * sX - 1/2 ≤ ((b : ℤ) : ℚ) := by
      rw [hb, frameW, Int.cast_max]
      have h6 := lt_jround (ws.sum * sX)
      exact le_trans (le_of_lt h6) (le_max_right _ _)
    have key1 : a - b ≤ (ws.length : ℤ) := by
      apply int_le_of_cast_le_add_half
      linarith
    have key2 : b - a ≤ (ws.length : ℤ) := by
      apply int_le_of_cast_le_add_half
      linarith
    rw [abs_le]
    constructor
    · omega
    · exact key1
  · push_neg at hsx
    have hwneg : ∀ w ∈ ws, w * sX ≤ 0 := by
      intro w hw
      exact le_of_lt (mul_neg_of_pos_of_neg (hwpos w hw) hsx)
    have haeq : a = (ws.length : ℤ) := sum_clamped_eq_length sX ws hwneg
    have hbeq : b = 1 := by
      rw [hb, frameW]
      exact clamp_one_of_nonpos _
        (le_of_lt (mul_neg_of_pos_of_neg hSpos hsx))
    rw [haeq, hbeq, abs_le]
    have h0 : 0 < ws.length := List.length_pos.mpr hmapne2
    constructor
    · omega
    · omega

/-- C5 witness: spec Scenario A's two plates (250 cm and 100 cm wide) at
`scaleX = 18/11`: the clamped pixel widths sum within 2 px of the frame
width. -/
theorem C5_width_sum_drift_witness :
    |((renderBoxes (18/11) (18/11) [⟨1, 250, 128⟩, ⟨2, 100, 90⟩]).map
        RenderBox.widthPx).sum -
      frameW (totalWidthCm [⟨1, 250, 128⟩, ⟨2, 100, 90⟩]) (18/11)| ≤
    (([⟨1, 250, 128⟩, ⟨2, 100, 90⟩] : List Plate).length : ℤ) :=
  C5_width_sum_drift (18/11) (18/11) [⟨1, 250, 128⟩, ⟨2, 100, 90⟩]
    (by decide) (by decide)

/-- With unique ids, filtering out one id removes at most one element. -/
theorem length_le_filter_id_add_one (i : ℕ) :
    ∀ l : List Plate, (l.map Plate.id).Nodup →
      l.length ≤ (l.filter (fun p => p.id != i)).length + 1 := by
  intro l
  induction l with
  | nil => intro hnd; simp
  | cons p ps ih =>
    intro hnd
    rw [List.map_cons, List.nodup_cons] at hnd
    obtain ⟨hp, hps⟩ := hnd
    by_cases hid : p.id = i
    · have hall : ps.filter (fun q => q.id != i) = ps := by
        apply List.filter_eq_self.mpr
        intro q hq
        rw [bne_iff_ne]
        intro hqi
        exact hp (hid ▸ hqi ▸ List.mem_map_of_mem Plate.id hq)
      have hfp : (p.id != i) = false := by simp [hid]
      rw [List.filter_cons, hfp, if_neg Bool.false_ne_true, hall]
      simp
    · have hfp : (p.id != i) = true := by rw [bne_iff_ne]; exact hid
      have h2 := ih hps
      rw [List.filter_cons, hfp, if_pos rfl]
      simp only [List.length_cons]
      omega

/-- Filtering preserves the uniqueness of the ids. -/
theorem nodup_ids_filter (i : ℕ) (l : List Plate)
    (h : (l.map Plate.id).Nodup) :
    ((l.filter (fun p => p.id != i)).map Plate.id).Nodup :=
  h.sublist ((l.filter_sublist (p := fun p => p.id != i)).map Plate.id)

/-- One user operation preserves the Plate Set invariant, provided the id
generator always yields an id not already in the list. -/
theorem applyOp_preserves (gen : List Plate → Plate)
    (hgen : ∀ l, (gen l).id ∉ l.map Plate.id) (l : List Plate)
    (op : PlateOp) (h : PlateSetInv l) : PlateSetInv (applyOp gen l op) := by
  obtain ⟨h1, h10, hnd⟩ := h
  cases op with
  | add =>
    show PlateSetInv (addPlate (gen l) l)
    rw [addPlate]
    by_cases hlen : 10 ≤ l.length
    · rw [if_pos hlen]
      exact ⟨h1, h10, hnd⟩
    · rw [if_neg hlen]
      refine ⟨?_, ?_, ?_⟩
      · rw [List.length_append]
        omega
      · rw [List.length_append]
        simp only [List.length_singleton]
        omega
      · rw [List.map_append]
        apply List.Nodup.append hnd (List.nodup_singleton _)
        intro a ha hb
        rw [List.mem_singleton] at hb
        exact hgen l (hb ▸ ha)
  | remove i =>
    show PlateSetInv (removePlate i l)
    rw [removePlate]
    by_cases hlen : l.length ≤ 1
    · rw [if_pos hlen]
      exact ⟨h1, h10, hnd⟩
    · rw [if_neg hlen]
      have hf := length_le_filter_id_add_one i l hnd
      have hfle := List.length_filter_le (fun p => p.id != i) l
      exact ⟨by omega, by omega, nodup_ids_filter i l hnd⟩

/-- Any sequence of operations preserves the Plate Set invariant. -/
theorem foldl_applyOp_preserves (gen : List Plate → Plate)
    (hgen : ∀ l, (gen l).id ∉ l.map Plate.id) :
    ∀ (ops : List PlateOp) (l : List Plate), PlateSetInv l →
      PlateSetInv (ops.foldl (applyOp gen) l) := by
  intro ops
  induction ops with
  | nil => intro l h; exact h
  | cons op ops ih =>
    intro l h
    exact ih (applyOp gen l op) (applyOp_preserves gen hgen l op h)

/-- The concrete id generator is always fresh. -/
theorem genFresh_fresh : ∀ l : List Plate, (genFresh l).id ∉ l.map Plate.id := by
  intro l hmem
  have hle := List.single_le_sum (fun x _ => Nat.zero_le x) _ hmem
  simp only [genFresh] at hle
  omega

/-- C9: `addPlate` keeps a full list (10 or more) unchanged and otherwise
appends exactly one plate; `removePlate` keeps a minimal list (1 or fewer)
unchanged and otherwise removes at most the plate with the given id (ids
being unique by the data model); consequently every sequence of add/remove
operations preserves `1 ≤ length ≤ 10`. -/
theorem C9_plate_count_invariant :
    (∀ (p : Plate) (l : List Plate), 10 ≤ l.length → addPlate p l = l) ∧
    (∀ (p : Plate) (l : List Plate), l.length < 10 → addPlate p l = l ++ [p]) ∧
    (∀ (i : ℕ) (l : List Plate), l.length ≤ 1 → removePlate i l = l) ∧
    (∀ (i : ℕ) (l : List Plate), 1 < l.length →
      removePlate i l = l.filter (fun p => p.id != i)) ∧
    (∀ (gen : List Plate → Plate), (∀ l, (gen l).id ∉ l.map Plate.id) →
      ∀ (ops : List PlateOp) (l : List Plate), PlateSetInv l →
        PlateSetInv (ops.foldl (applyOp gen) l)) := by
  refine ⟨?_, ?_, ?_, ?_, foldl_applyOp_preserves⟩
  · intro p l h
    rw [addPlate, if_pos h]
  · intro p l h
    rw [addPlate, if_neg (by omega)]
  · intro i l h
    rw [removePlate, if_pos h]
  · intro i l h
    rw [removePlate, if_neg (by omega)]

/-- C9 witness: starting from one plate, adding a fresh plate and then
removing id 1 keeps the invariant. -/
theorem C9_plate_count_witness :
    PlateSetInv ([PlateOp.add, PlateOp.remove 1].foldl (applyOp genFresh)
      [⟨1, 60, 40⟩]) :=
  C9_plate_count_invariant.2.2.2.2 genFresh genFresh_fresh
    [PlateOp.add, PlateOp.remove 1] [⟨1, 60, 40⟩]
    ⟨by decide, by decide, by decide⟩

/-- C10: for every scale and Plate Set the tile parameters cover the frame:
`tileW ≥ 1`, `tileCount ≥ 1` and `tileCount * tileW ≥ frameW`, so the tile
row spans at least the full frame width. -/
theorem C10_tile_row_covers_frame (sX : ℚ) (plates : List Plate) :
    1 ≤ (tile sX (frameW (totalWidthCm plates) sX)).tileW ∧
    1 ≤ (tile sX (frameW (totalWidthCm plates) sX)).tileCount ∧
    frameW (totalWidthCm plates) sX ≤
      (tile sX (frameW (totalWidthCm plates) sX)).tileCount *
        (tile sX (frameW (totalWidthCm plates) sX)).tileW := by
  set fw := frameW (totalWidthCm plates) sX with hfw
  rw [tile_tileW, tile_tileCount]
  refine ⟨le_max_left _ _, le_max_left _ _, ?_⟩
  set tw : ℤ := max 1 (jround (MOTIF_WIDTH_CM * sX)) with htw
  have htw1 : (1 : ℤ) ≤ tw := le_max_left _ _
  have htwQ : (0 : ℚ) < (tw : ℚ) := by
    have h0 : (0 : ℤ) < tw := by omega
    exact_mod_cast h0
  have h1 : (fw : ℚ) ≤ (⌈(fw : ℚ) / (tw : ℚ)⌉ : ℚ) * (tw : ℚ) := by
    have h0 : (fw : ℚ) = (fw : ℚ) / (tw : ℚ) * (tw : ℚ) := by
      field_simp
    calc (fw : ℚ) = (fw : ℚ) / (tw : ℚ) * (tw : ℚ) := h0
      _ ≤ (⌈(fw : ℚ) / (tw : ℚ)⌉ : ℚ) * (tw : ℚ) :=
        mul_le_mul_of_nonneg_right (Int.le_ceil _) (le_of_lt htwQ)
  have h2 : (⌈(fw : ℚ) / (tw : ℚ)⌉ : ℚ) * (tw : ℚ) ≤
      ((max 1 ⌈(fw : ℚ) / (tw : ℚ)⌉ : ℤ) : ℚ) * (tw : ℚ) := by
    apply mul_le_mul_of_nonneg_right _ (le_of_lt htwQ)
    exact_mod_cast le_max_right 1 ⌈(fw : ℚ) / (tw : ℚ)⌉
  have h3 := le_trans h1 h2
  exact_mod_cast h3

end PlateGen
